import Mathlib

/-!
Verification of the core of `gh-migrate-variables` against its design
specification.  The Go source is shallowly embedded: pure control flow is
translated into Lean functions; remote calls (the GitHub API), the
configuration store, the clock and the cancellation context are passed in
as explicit oracle functions; Go `error` values are modelled as
`Option String` carrying the formatted error message (the code itself
compares errors by their formatted text, so strings are the faithful
model); durations are modelled as `Nat` nanoseconds.
-/

/-! ## Retry policy (`internal/api/api.go`, `retryWithExponentialBackoff`) -/

/-- One second in nanoseconds, Go `time.Second`. -/
def oneSecond : Nat := 1000000000

/-- Observable outcome of one run of the retry loop: the returned error
(`none` = success), the number of invocations of the operation that were
performed, and the backoff waits (durations) that were completed between
attempts, in order. -/
structure RetryTrace where
  result : Option String
  attempts : Nat
  waits : List Nat
deriving DecidableEq

/-- Go: `maxRetries := viper.GetInt("RETRY_MAX"); if maxRetries <= 0 { maxRetries = 3 }`. -/
def effectiveMaxRetries (cfg : Int) : Nat :=
  if cfg ≤ 0 then 3 else cfg.toNat

/-- Go: `retryDelay, err := time.ParseDuration(viper.GetString("RETRY_DELAY"))`;
on parse failure (`none`) the delay defaults to `time.Second`. -/
def effectiveRetryDelay (cfg : Option Nat) : Nat :=
  cfg.getD oneSecond

/-- The retry loop of `retryWithExponentialBackoff`, entered at `attempt`
(1-based).  `op i` is the outcome of the i-th invocation of `operation`
(`none` = success).  `ctxDone i` tells whether the context is done during the
backoff wait following attempt `i` (the `select` takes the `ctx.Done()`
branch).  `ctxErr` is the text of `ctx.Err()`.  Faithful to the Go loop for
every entry point `attempt ≤ maxRetries`; `retryWithExponentialBackoff`
always enters at `attempt = 1` with `maxRetries ≥ 1`. -/
def retryAux (op : Nat → Option String) (ctxDone : Nat → Bool) (ctxErr : String)
    (retryDelay maxRetries attempt : Nat) (waits : List Nat) : RetryTrace :=
  match op attempt with
  | none => ⟨none, attempt, waits⟩
  | some err =>
    if h : attempt < maxRetries then
      let waitTime := retryDelay * 2 ^ (attempt - 1)
      if ctxDone attempt then
        ⟨some ("operation cancelled: " ++ ctxErr), attempt, waits⟩
      else
        retryAux op ctxDone ctxErr retryDelay maxRetries (attempt + 1) (waits ++ [waitTime])
    else
      ⟨some ("operation failed after " ++ toString maxRetries ++ " attempts: " ++ err),
        attempt, waits⟩
termination_by maxRetries - attempt

/-- `retryWithExponentialBackoff` with the configuration reads made explicit:
`retryMaxCfg` is `viper.GetInt("RETRY_MAX")` and `retryDelayCfg` the parsed
`RETRY_DELAY` (`none` = parse failure). -/
def retryWithExponentialBackoff (op : Nat → Option String) (ctxDone : Nat → Bool)
    (ctxErr : String) (retryMaxCfg : Int) (retryDelayCfg : Option Nat) : RetryTrace :=
  retryAux op ctxDone ctxErr (effectiveRetryDelay retryDelayCfg)
    (effectiveMaxRetries retryMaxCfg) 1 []

theorem effectiveMaxRetries_pos (cfg : Int) : 1 ≤ effectiveMaxRetries cfg := by
  unfold effectiveMaxRetries
  split
  · omega
  · omega

theorem retryAux_ok (op : Nat → Option String) (cd : Nat → Bool) (ce : String)
    (d maxR : Nat) :
    ∀ (j a : Nat) (w : List Nat), 1 ≤ a → a + j ≤ maxR →
      (∀ i, a ≤ i → i < a + j → op i ≠ none) →
      (∀ i, a ≤ i → i < a + j → cd i = false) →
      op (a + j) = none →
      retryAux op cd ce d maxR a w =
        ⟨none, a + j, w ++ (List.range j).map (fun t => d * 2 ^ (a - 1 + t))⟩ := by
  intro j
  induction j with
  | zero =>
    intro a w ha hle hfail hcd hsucc
    rw [Nat.add_zero] at hsucc
    unfold retryAux
    rw [hsucc]
    simp
  | succ j ih =>
    intro a w ha hle hfail hcd hsucc
    have hfa : op a ≠ none := hfail a le_rfl (by omega)
    have hcda : cd a = false := hcd a le_rfl (by omega)
    unfold retryAux
    cases hop : op a with
    | none => exact absurd hop hfa
    | some e =>
      have hlt : a < maxR := by omega
      dsimp only
      rw [dif_pos hlt]
      simp only [hcda, Bool.false_eq_true, if_false]
      rw [ih (a + 1) (w ++ [d * 2 ^ (a - 1)]) (by omega) (by omega)
        (fun i h1 h2 => hfail i (by omega) (by omega))
        (fun i h1 h2 => hcd i (by omega) (by omega))
        (by rw [show a + 1 + j = a + (j + 1) from by omega]; exact hsucc)]
      rw [show a + 1 + j = a + (j + 1) from by omega]
      congr 1
      rw [List.append_assoc, List.singleton_append, List.range_succ_eq_map,
        List.map_cons, List.map_map]
      congr 1
      simp
      intro t ht
      omega

/-- C1: if the operation fails on each of the first `k` attempts, succeeds on
attempt `k + 1`, with `k + 1 ≤ MaxAttempts`, and no cancellation fires during
the backoff waits, then the retry policy returns success after exactly `k + 1`
attempts, and the completed waits are `BaseDelay*2^0, ..., BaseDelay*2^(k-1)`. -/
theorem retry_success_after_k_failures (op : Nat → Option String) (cd : Nat → Bool)
    (ce : String) (retryMaxCfg : Int) (retryDelayCfg : Option Nat) (k : Nat)
    (hk : k < effectiveMaxRetries retryMaxCfg)
    (hfail : ∀ i, i < k + 1 → 1 ≤ i → op i ≠ none)
    (hsucc : op (k + 1) = none)
    (hcd : ∀ i, i < k + 1 → 1 ≤ i → cd i = false) :
    retryWithExponentialBackoff op cd ce retryMaxCfg retryDelayCfg =
      ⟨none, k + 1,
        (List.range k).map (fun t => effectiveRetryDelay retryDelayCfg * 2 ^ t)⟩ := by
  unfold retryWithExponentialBackoff
  rw [retryAux_ok op cd ce (effectiveRetryDelay retryDelayCfg)
    (effectiveMaxRetries retryMaxCfg) k 1 [] le_rfl (by omega)
    (fun i h1 h2 => hfail i (by omega) h1)
    (fun i h1 h2 => hcd i (by omega) h1)
    (by rw [Nat.add_comm]; exact hsucc)]
  rw [show 1 + k = k + 1 from by omega]
  congr 1
  simp

/-- Closed-form check of `retry_success_after_k_failures` on a concrete run:
an operation failing once then succeeding, `RETRY_MAX = 3`, delay 7. -/
theorem retry_success_after_k_failures_witness :
    (1 < effectiveMaxRetries 3) ∧
    retryWithExponentialBackoff (fun i => if i = 1 then some "boom" else none)
      (fun _ => false) "deadline" 3 (some 7) = ⟨none, 2, [7]⟩ :=
  ⟨by decide,
    retry_success_after_k_failures (fun i => if i = 1 then some "boom" else none)
      (fun _ => false) "deadline" 3 (some 7) 1 (by decide)
      (by decide) (by decide) (by decide)⟩

theorem retryAux_exhaust (op : Nat → Option String) (cd : Nat → Bool) (ce : String)
    (d maxR : Nat) (e : Nat → String) :
    ∀ (n a : Nat) (w : List Nat), 1 ≤ a → a ≤ maxR → maxR - a = n →
      (∀ i, a ≤ i → i ≤ maxR → op i = some (e i)) →
      (∀ i, a ≤ i → i < maxR → cd i = false) →
      (retryAux op cd ce d maxR a w).result =
          some ("operation failed after " ++ toString maxR ++ " attempts: " ++ e maxR) ∧
        (retryAux op cd ce d maxR a w).attempts = maxR := by
  intro n
  induction n with
  | zero =>
    intro a w ha hle hn hop hcd
    have hae : a = maxR := by omega
    subst hae
    unfold retryAux
    cases hopa : op a with
    | none => rw [hop a le_rfl le_rfl] at hopa; exact absurd hopa (by simp)
    | some x =>
      have hx : x = e a := by
        have := hop a le_rfl le_rfl
        rw [hopa] at this
        injection this
      subst hx
      dsimp only
      rw [dif_neg (by omega : ¬ a < a)]
      exact ⟨rfl, rfl⟩
  | succ n ihn =>
    intro a w ha hle hn hop hcd
    have hlt : a < maxR := by omega
    unfold retryAux
    cases hopa : op a with
    | none => rw [hop a le_rfl (by omega)] at hopa; exact absurd hopa (by simp)
    | some x =>
      dsimp only
      rw [dif_pos hlt]
      simp only [hcd a le_rfl hlt, Bool.false_eq_true, if_false]
      exact ihn (a + 1) (w ++ [d * 2 ^ (a - 1)]) (by omega) (by omega) (by omega)
        (fun i h1 h2 => hop i (by omega) h2) (fun i h1 h2 => hcd i (by omega) h2)

/-- C2: if the operation fails on every attempt and no cancellation fires
during the waits, the retry policy performs exactly `MaxAttempts` attempts and
returns an error that names `MaxAttempts` and wraps the last observed
failure. -/
theorem retry_exhausts_max_attempts (op : Nat → Option String) (cd : Nat → Bool)
    (ce : String) (retryMaxCfg : Int) (retryDelayCfg : Option Nat) (e : Nat → String)
    (hop : ∀ i, i < effectiveMaxRetries retryMaxCfg + 1 → 1 ≤ i → op i = some (e i))
    (hcd : ∀ i, i < effectiveMaxRetries retryMaxCfg → 1 ≤ i → cd i = false) :
    (retryWithExponentialBackoff op cd ce retryMaxCfg retryDelayCfg).result =
        some ("operation failed after " ++ toString (effectiveMaxRetries retryMaxCfg) ++
          " attempts: " ++ e (effectiveMaxRetries retryMaxCfg)) ∧
      (retryWithExponentialBackoff op cd ce retryMaxCfg retryDelayCfg).attempts =
        effectiveMaxRetries retryMaxCfg :=
  retryAux_exhaust op cd ce (effectiveRetryDelay retryDelayCfg)
    (effectiveMaxRetries retryMaxCfg) e (effectiveMaxRetries retryMaxCfg - 1) 1 []
    le_rfl (effectiveMaxRetries_pos retryMaxCfg) rfl
    (fun i h1 h2 => hop i (by omega) (by omega))
    (fun i h1 h2 => hcd i (by omega) (by omega))

/-- Closed-form check of `retry_exhausts_max_attempts`: an always-failing
operation with `RETRY_MAX = 2` stops after 2 attempts with the wrapping
message. -/
theorem retry_exhausts_max_attempts_witness :
    (∀ i, i < effectiveMaxRetries 2 + 1 → 1 ≤ i → (fun _ => some "boom") i = some "boom") ∧
    (retryWithExponentialBackoff (fun _ => some "boom") (fun _ => false) "deadline" 2
        none).result = some "operation failed after 2 attempts: boom" ∧
      (retryWithExponentialBackoff (fun _ => some "boom") (fun _ => false) "deadline" 2
        none).attempts = 2 :=
  ⟨by decide,
    retry_exhausts_max_attempts (fun _ => some "boom") (fun _ => false) "deadline" 2 none
      (fun _ => "boom") (by decide) (by decide)⟩

theorem retryAux_cancel (op : Nat → Option String) (cd : Nat → Bool) (ce : String)
    (d maxR : Nat) :
    ∀ (j a : Nat) (w : List Nat), 1 ≤ a → a + j < maxR →
      (∀ i, a ≤ i → i ≤ a + j → op i ≠ none) →
      (∀ i, a ≤ i → i < a + j → cd i = false) →
      cd (a + j) = true →
      (retryAux op cd ce d maxR a w).result = some ("operation cancelled: " ++ ce) ∧
        (retryAux op cd ce d maxR a w).attempts = a + j := by
  intro j
  induction j with
  | zero =>
    intro a w ha hlt hfail hcd hcda
    rw [Nat.add_zero] at hcda hlt ⊢
    unfold retryAux
    cases hopa : op a with
    | none => exact absurd hopa (hfail a le_rfl (by omega))
    | some x =>
      dsimp only
      rw [dif_pos hlt]
      simp [hcda]
  | succ j ihj =>
    intro a w ha hlt hfail hcd hcda
    unfold retryAux
    cases hopa : op a with
    | none => exact absurd hopa (hfail a le_rfl (by omega))
    | some x =>
      dsimp only
      rw [dif_pos (by omega : a < maxR)]
      simp only [hcd a le_rfl (by omega), Bool.false_eq_true, if_false]
      have hres := ihj (a + 1) (w ++ [d * 2 ^ (a - 1)]) (by omega) (by omega)
        (fun i h1 h2 => hfail i (by omega) (by omega))
        (fun i h1 h2 => hcd i (by omega) (by omega))
        (by rw [show a + 1 + j = a + (j + 1) from by omega]; exact hcda)
      rw [show a + 1 + j = a + (j + 1) from by omega] at hres
      exact hres

/-- C3: if the operation fails on attempts `1..j` and the context is
cancelled (deadline fires) during the backoff wait following attempt `j`,
with `j < MaxAttempts`, the retry policy returns a cancellation error
immediately, having performed only `j < MaxAttempts` attempts. -/
theorem retry_cancelled_during_wait (op : Nat → Option String) (cd : Nat → Bool)
    (ce : String) (retryMaxCfg : Int) (retryDelayCfg : Option Nat) (j : Nat)
    (hj : 1 ≤ j) (hjm : j < effectiveMaxRetries retryMaxCfg)
    (hfail : ∀ i, i < j + 1 → 1 ≤ i → op i ≠ none)
    (hcd : ∀ i, i < j → 1 ≤ i → cd i = false)
    (hcdj : cd j = true) :
    (retryWithExponentialBackoff op cd ce retryMaxCfg retryDelayCfg).result =
        some ("operation cancelled: " ++ ce) ∧
      (retryWithExponentialBackoff op cd ce retryMaxCfg retryDelayCfg).attempts = j ∧
      (retryWithExponentialBackoff op cd ce retryMaxCfg retryDelayCfg).attempts <
        effectiveMaxRetries retryMaxCfg := by
  have hres := retryAux_cancel op cd ce (effectiveRetryDelay retryDelayCfg)
    (effectiveMaxRetries retryMaxCfg) (j - 1) 1 [] le_rfl (by omega)
    (fun i h1 h2 => hfail i (by omega) h1)
    (fun i h1 h2 => hcd i (by omega) h1)
    (by rw [show 1 + (j - 1) = j from by omega]; exact hcdj)
  rw [show 1 + (j - 1) = j from by omega] at hres
  exact ⟨hres.1, hres.2, lt_of_le_of_lt (le_of_eq hres.2) hjm⟩

/-- Closed-form check of `retry_cancelled_during_wait`: default `RETRY_MAX`
(3), operation always failing, context done during the first wait. -/
theorem retry_cancelled_during_wait_witness :
    (1 < effectiveMaxRetries 0) ∧
    (retryWithExponentialBackoff (fun _ => some "boom") (fun i => i == 1)
        "context deadline exceeded" 0 none).result =
      some "operation cancelled: context deadline exceeded" ∧
    (retryWithExponentialBackoff (fun _ => some "boom") (fun i => i == 1)
        "context deadline exceeded" 0 none).attempts = 1 :=
  ⟨by decide,
    (retry_cancelled_during_wait (fun _ => some "boom") (fun i => i == 1)
      "context deadline exceeded" 0 none 1 (by decide) (by decide) (by decide)
      (by decide) (by decide)).1,
    (retry_cancelled_during_wait (fun _ => some "boom") (fun i => i == 1)
      "context deadline exceeded" 0 none 1 (by decide) (by decide) (by decide)
      (by decide) (by decide)).2.1⟩

/-! ## Proxy selection (`internal/api/api.go`, `buildProxyFunction`) -/

/-- Go `ProxyConfig` (`HTTP_PROXY`, `HTTPS_PROXY`, `NO_PROXY` read from the
environment via viper). -/
structure ProxyConfig where
  httpProxy : String
  httpsProxy : String
  noProxy : String
deriving DecidableEq

/-- The parts of `req.URL` that `buildProxyFunction` inspects. -/
structure RequestURL where
  scheme : String
  host : String
deriving DecidableEq

/-- The proxy function returned by `buildProxyFunction`, applied to one
request.  `none` means "no proxy"; `some s` means "proxy s" (Go returns
`url.Parse(s)`; URL parsing is modelled as returning the string itself). -/
def buildProxyFunction (proxyConfig : Option ProxyConfig) (req : RequestURL) :
    Option String :=
  match proxyConfig with
  | some c =>
    if c.noProxy ≠ "" ∧ (c.noProxy.splitOn ",").any (fun np => np.trim == req.host) then
      none
    else if req.scheme = "https" ∧ c.httpsProxy ≠ "" then some c.httpsProxy
    else if req.scheme = "http" ∧ c.httpProxy ≠ "" then some c.httpProxy
    else none
  | none => none

/-- Modelled from the claim wording of C8 (the specified selection
algorithm): the comma-separated entries of `NO_PROXY` (none when `NO_PROXY`
is empty), each compared to the request host after trimming whitespace;
otherwise scheme-based selection. -/
def proxySelectionSpec (c : ProxyConfig) (req : RequestURL) : Option String :=
  let entries := if c.noProxy = "" then [] else c.noProxy.splitOn ","
  if entries.any (fun np => np.trim == req.host) then none
  else if req.scheme = "https" ∧ c.httpsProxy ≠ "" then some c.httpsProxy
  else if req.scheme = "http" ∧ c.httpProxy ≠ "" then some c.httpProxy
  else none

/-- C8: the proxy function built by `buildProxyFunction` implements exactly
the specified selection: bypass when the host equals a trimmed
comma-separated `NO_PROXY` entry, otherwise `HTTPS_PROXY` for https requests
when set, `HTTP_PROXY` for http requests when set, else no proxy. -/
theorem buildProxyFunction_matches_spec (c : ProxyConfig) (req : RequestURL) :
    buildProxyFunction (some c) req = proxySelectionSpec c req := by
  unfold buildProxyFunction proxySelectionSpec
  by_cases hnp : c.noProxy = ""
  · simp [hnp]
  · simp [hnp]

/-! ## Variable normalization (`internal/api/api.go`, `parseGitHubVariable`,
`fetchGitHubVariables`) and CSV row emission (`pkg/export/export.go`) -/

/-- Default visibility constant (`defaultVariableVisibility`). -/
def defaultVariableVisibility : String := "private"

/-- Entity-type constants. -/
def EntityTypeOrg : String := "organization"

def EntityTypeRepository : String := "repository"

/-- Go `github.ActionsVariable` as far as the code reads it: `Name`,
`Value` (strings) and `Visibility` (a nullable string pointer). -/
structure ActionsVariable where
  name : String
  value : String
  visibility : Option String
deriving DecidableEq

/-- The record produced by `parseGitHubVariable` (Go builds a
`map[string]string` with exactly the fixed keys `Name`, `Value`, `Scope`,
`Visibility`). -/
structure ParsedVariable where
  name : String
  value : String
  scope : String
  visibility : String
deriving DecidableEq

/-- `parseGitHubVariable`: `none` for a nil variable or an empty name;
otherwise the normalized record, defaulting a nil visibility to
`private`. -/
def parseGitHubVariable (variableOpt : Option ActionsVariable) (scope : String) :
    Option ParsedVariable :=
  match variableOpt with
  | none => none
  | some v =>
    if v.name = "" then none
    else some ⟨v.name, v.value, scope, v.visibility.getD defaultVariableVisibility⟩

/-- The collection loop of `fetchGitHubVariables`: parse each remote
variable, keeping only the non-nil parses. -/
def parseVariablesList (vars : List (Option ActionsVariable)) (scope : String) :
    List ParsedVariable :=
  vars.filterMap (fun v => parseGitHubVariable v scope)

/-- The per-variable CSV emission of `ExportVariables`: a row is written only
when the record's `Name` is present and non-empty. -/
def exportRows (allVariables : List ParsedVariable) : List (List String) :=
  allVariables.filterMap (fun v =>
    if v.name ≠ "" then some [v.name, v.value, v.scope, v.visibility] else none)

/-- C7: every record emitted by the Reader has a non-empty `Name`; a nil
variable or one with an empty name parses to `none` (dropped silently, no
error), and every CSV row written by the exporter has a non-empty name
field. -/
theorem reader_records_nonempty_name :
    (∀ (vars : List (Option ActionsVariable)) (scope : String),
      ∀ p ∈ parseVariablesList vars scope, p.name ≠ "") ∧
    (∀ scope, parseGitHubVariable none scope = none) ∧
    (∀ (v : ActionsVariable) scope, v.name = "" →
      parseGitHubVariable (some v) scope = none) ∧
    (∀ (vs : List ParsedVariable), ∀ row ∈ exportRows vs, row.getD 0 "" ≠ "") := by
  refine ⟨?_, fun _ => rfl, ?_, ?_⟩
  · intro vars scope p hp
    rw [parseVariablesList, List.mem_filterMap] at hp
    obtain ⟨v, _, hv⟩ := hp
    match v with
    | none => exact absurd hv (by simp [parseGitHubVariable])
    | some v0 =>
      rw [parseGitHubVariable] at hv
      by_cases hn : v0.name = ""
      · rw [if_pos hn] at hv
        exact absurd hv (by simp)
      · rw [if_neg hn] at hv
        have := Option.some.inj hv
        rw [← this]
        exact hn
  · intro v scope hname
    rw [parseGitHubVariable, if_pos hname]
  · intro vs row hrow
    rw [exportRows, List.mem_filterMap] at hrow
    obtain ⟨v, _, hv⟩ := hrow
    by_cases hn : v.name ≠ ""
    · rw [if_pos hn] at hv
      have := Option.some.inj hv
      rw [← this]
      simpa using hn
    · rw [if_neg hn] at hv
      exact absurd hv (by simp)

/-- Closed-form check of `reader_records_nonempty_name`: a nil variable, an
empty-name variable and a real one; only the real one survives, and its CSV
row has a non-empty name. -/
theorem reader_records_nonempty_name_witness :
    ("VAR1" : String) ≠ "" ∧
    parseVariablesList [none, some ⟨"", "x", none⟩, some ⟨"VAR1", "v", some "all"⟩]
        "organization" = [⟨"VAR1", "v", "organization", "all"⟩] ∧
    (⟨"VAR1", "v", "organization", "all"⟩ : ParsedVariable).name ≠ "" :=
  ⟨by decide, rfl,
    reader_records_nonempty_name.1
      [none, some ⟨"", "x", none⟩, some ⟨"VAR1", "v", some "all"⟩] "organization"
      ⟨"VAR1", "v", "organization", "all"⟩ (List.mem_singleton.mpr rfl)⟩

/-! ## Repository existence check (`internal/api/api.go`,
`doesRepositoryExist`) -/

/-- Outcome of one invocation of `client.Repositories.Get`: the returned
error (`none` = success) and the HTTP status code of the response. -/
structure GetRepositoryResult where
  err : Option String
  status : Nat
deriving DecidableEq

/-- `doesRepositoryExist`, instrumented with the number of lookup calls it
performs.  `getRep n` is the outcome of the n-th invocation of
`client.Repositories.Get` within this call.  Client initialization fails iff
the token is empty (`initializeGitHubClient`; a supplied enterprise hostname
is assumed well-formed — no claim involves the hostname-parse-failure path).
Returns `((found, err), lookupCalls)`. -/
def doesRepositoryExist (getRep : Nat → GetRepositoryResult) (token : String) :
    (Bool × Option String) × Nat :=
  if token = "" then
    ((false, some "failed to initialize GitHub client: GitHub token is required"), 0)
  else
    let r := getRep 1
    match r.err with
    | some _ => ((false, none), 1)
    | none => ((r.status == 200, none), 1)

/-- C5: with a usable client, any failure of the remote lookup makes the
existence check return `false` with no error of its own — the lookup's
transport/API error is never propagated. -/
theorem existence_check_swallows_lookup_error (getRep : Nat → GetRepositoryResult)
    (token : String) (htok : token ≠ "") (e : String)
    (herr : (getRep 1).err = some e) :
    doesRepositoryExist getRep token = ((false, none), 1) := by
  unfold doesRepositoryExist
  rw [if_neg htok]
  simp only [herr]

/-- Closed-form check of `existence_check_swallows_lookup_error` on a lookup
that fails with a transport error. -/
theorem existence_check_swallows_lookup_error_witness :
    ("token" : String) ≠ "" ∧
    ((fun _ => (⟨some "connection refused", 0⟩ : GetRepositoryResult)) 1).err =
      some "connection refused" ∧
    doesRepositoryExist (fun _ => ⟨some "connection refused", 0⟩) "token" =
      ((false, none), 1) :=
  ⟨by decide, rfl,
    existence_check_swallows_lookup_error (fun _ => ⟨some "connection refused", 0⟩)
      "token" (by decide) "connection refused" rfl⟩

/-- A transiently failing lookup: the first `Repositories.Get` call errors,
any later call would succeed with status 200. -/
def transientGetRepository : Nat → GetRepositoryResult :=
  fun n => if n = 1 then ⟨some "rate limit exceeded", 500⟩ else ⟨none, 200⟩

/-- C4 counterexample: with the default retry configuration
(`MaxAttempts = 3`) and a lookup that fails once and would succeed on a
second call, `doesRepositoryExist` performs exactly one lookup call — it is
not wrapped in the retry policy — and reports `false` even though a second
attempt would have succeeded. -/
theorem existence_check_not_retried :
    (transientGetRepository 2).err = none ∧
    (transientGetRepository 2).status = 200 ∧
    1 < effectiveMaxRetries 0 ∧
    (doesRepositoryExist transientGetRepository "token").2 = 1 ∧
    ¬ 1 < (doesRepositoryExist transientGetRepository "token").2 ∧
    (doesRepositoryExist transientGetRepository "token").1 = (false, none) := by
  decide

/-! ## Variable writer (`internal/api/api.go`, `addGitHubVariable`) -/

/-- Oracles for one `addGitHubVariable` call: the repository-lookup outcomes,
the per-attempt outcomes of the (retried) create call for each entity type,
and the retry configuration and context behaviour used by
`retryWithDefaultContext`. -/
structure WriterEnv where
  getRep : Nat → GetRepositoryResult
  createOrgOp : Nat → Option String
  createRepoOp : Nat → Option String
  ctxDone : Nat → Bool
  ctxErr : String
  retryMaxCfg : Int
  retryDelayCfg : Option Nat

/-- Result of `addGitHubVariable`, instrumented with the number of
existence-lookup calls and of creation attempts performed
(`createAttempts = 0` = the create call was never reached). -/
structure WriterResult where
  err : Option String
  existenceCalls : Nat
  createAttempts : Nat
deriving DecidableEq

/-- The tail of `addGitHubVariable` after the existence check: client
initialization, visibility defaulting (which only shapes the transmitted
payload, already folded into the creation oracles) and the retried creation
call, whose exhaustion error is wrapped naming the entity type and variable
name. -/
def addGitHubVariableCreate (env : WriterEnv) (entityType name : String)
    (token : String) (ec : Nat) : WriterResult :=
  if token = "" then
    ⟨some "failed to initialize GitHub client: GitHub token is required", ec, 0⟩
  else
    let tr := retryWithExponentialBackoff
      (if entityType = EntityTypeOrg then env.createOrgOp else env.createRepoOp)
      env.ctxDone env.ctxErr env.retryMaxCfg env.retryDelayCfg
    match tr.result with
    | some e =>
      ⟨some ("failed to create " ++ entityType ++ " variable " ++ name ++ ": " ++ e),
        ec, tr.attempts⟩
    | none => ⟨none, ec, tr.attempts⟩

/-- `addGitHubVariable`: input validation, then (for repository scope) the
repository existence check, then the retried creation. -/
def addGitHubVariable (env : WriterEnv)
    (entityType org repo name _value _visibility token : String) : WriterResult :=
  if org = "" ∨ name = "" then
    ⟨some "organization name and variable name are required", 0, 0⟩
  else if entityType = EntityTypeRepository ∧ repo = "" then
    ⟨some "repository name is required", 0, 0⟩
  else if entityType = EntityTypeRepository then
    let er := doesRepositoryExist env.getRep token
    match er.1.2 with
    | some e => ⟨some ("failed to check repository existence: " ++ e), er.2, 0⟩
    | none =>
      if er.1.1 then addGitHubVariableCreate env entityType name token er.2
      else ⟨some ("repository " ++ repo ++ " does not exist in organization " ++ org),
        er.2, 0⟩
  else
    addGitHubVariableCreate env entityType name token 0

/-- `AddOrgVariable` (the `_hostname` parameter only selects the API base
URL, which the model folds into the oracles). -/
def AddOrgVariable (env : WriterEnv)
    (org name value visibility token _hostname : String) : WriterResult :=
  addGitHubVariable env EntityTypeOrg org "" name value visibility token

/-- `AddRepoVariable`. -/
def AddRepoVariable (env : WriterEnv)
    (org repo name value visibility token _hostname : String) : WriterResult :=
  addGitHubVariable env EntityTypeRepository org repo name value visibility token

/-- C4 (amended): before creating a repository-scope variable the writer does
perform the repository existence check — a negative check aborts with the
not-found error and no creation attempt — but the check performs exactly one
lookup call: it is not wrapped in the retry policy. -/
theorem addGitHubVariableCreate_existenceCalls (env : WriterEnv)
    (entityType name token : String) (ec : Nat) :
    (addGitHubVariableCreate env entityType name token ec).existenceCalls = ec := by
  unfold addGitHubVariableCreate
  split
  · rfl
  · dsimp only
    split <;> split <;> rfl

theorem existence_check_before_create_single_lookup (env : WriterEnv)
    (org repo name value visibility token : String)
    (horg : org ≠ "") (hname : name ≠ "") (hrepo : repo ≠ "") (htok : token ≠ "") :
    (addGitHubVariable env EntityTypeRepository org repo name value visibility
        token).existenceCalls = 1 ∧
    ((doesRepositoryExist env.getRep token).1.1 = false →
      addGitHubVariable env EntityTypeRepository org repo name value visibility token =
        ⟨some ("repository " ++ repo ++ " does not exist in organization " ++ org),
          1, 0⟩) := by
  unfold addGitHubVariable
  rw [if_neg (by simp [horg, hname]), if_neg (by simp [hrepo]),
    if_pos (rfl : EntityTypeRepository = EntityTypeRepository)]
  unfold doesRepositoryExist
  rw [if_neg htok]
  cases hge : (env.getRep 1).err with
  | some e =>
    simp [hge]
  | none =>
    simp only [hge]
    cases hst : ((env.getRep 1).status == 200) with
    | false =>
      simp [Bool.false_eq_true]
    | true =>
      rw [if_pos rfl]
      exact ⟨addGitHubVariableCreate_existenceCalls env EntityTypeRepository name token 1,
        fun h => absurd h (by decide)⟩

/-- Closed-form check of `existence_check_before_create_single_lookup` on a
writer call whose target repository is missing (lookup returns 404). -/
theorem existence_check_before_create_single_lookup_witness :
    ((doesRepositoryExist (fun _ => ⟨none, 404⟩) "t").1.1 = false) ∧
    addGitHubVariable ⟨fun _ => ⟨none, 404⟩, fun _ => none, fun _ => none,
        fun _ => false, "", 0, none⟩ EntityTypeRepository "org" "repoA" "VAR2"
        "val2" "private" "t" =
      ⟨some "repository repoA does not exist in organization org", 1, 0⟩ :=
  ⟨by decide,
    (existence_check_before_create_single_lookup
      ⟨fun _ => ⟨none, 404⟩, fun _ => none, fun _ => none, fun _ => false, "", 0, none⟩
      "org" "repoA" "VAR2" "val2" "private" "t"
      (by decide) (by decide) (by decide) (by decide)).2 (by decide)⟩

/-! ## Sync orchestrator (`pkg/sync`, `SyncVariables`) -/

/-- The per-run outcome counters of `SyncVariables`. -/
structure SyncStats where
  total : Nat
  succeeded : Nat
  failed : Nat
  skipped : Nat
deriving DecidableEq

/-- The loop body of `SyncVariables` for one CSV record: count it, skip it
when it has fewer than four columns, otherwise create the variable at
organization or repository scope (per column 2) and classify the outcome.
The repository-not-found classification compares the returned error text with
the re-derived message, exactly as the Go code does. -/
def processRecord (env : WriterEnv) (targetOrg targetToken hostname : String)
    (stats : SyncStats) (record : List String) : SyncStats :=
  let stats := { stats with total := stats.total + 1 }
  if record.length < 4 then
    { stats with skipped := stats.skipped + 1 }
  else
    let variableName := record.getD 0 ""
    let variableValue := record.getD 1 ""
    let scope := record.getD 2 ""
    let visibility := record.getD 3 ""
    if scope = "organization" then
      match (AddOrgVariable env targetOrg variableName variableValue visibility
          targetToken hostname).err with
      | some _ => { stats with failed := stats.failed + 1 }
      | none => { stats with succeeded := stats.succeeded + 1 }
    else
      match (AddRepoVariable env targetOrg scope variableName variableValue visibility
          targetToken hostname).err with
      | some e =>
        if e = "repository " ++ scope ++ " does not exist in organization " ++ targetOrg
        then { stats with skipped := stats.skipped + 1 }
        else { stats with failed := stats.failed + 1 }
      | none => { stats with succeeded := stats.succeeded + 1 }

/-- The record loop of `SyncVariables`, processing records in order; the
`envs` oracle supplies the remote behaviour for the i-th processed record. -/
def syncRecordsLoop (envs : Nat → WriterEnv) (targetOrg targetToken hostname : String) :
    Nat → List (List String) → SyncStats → SyncStats
  | _, [], stats => stats
  | i, r :: rs, stats =>
    syncRecordsLoop envs targetOrg targetToken hostname (i + 1) rs
      (processRecord (envs i) targetOrg targetToken hostname stats r)

/-- `SyncVariables` from the point where the CSV has been parsed into
`records` (file open/read failures return earlier and are independent of the
claims).  Go slices the parsed list as `records[1:]` unconditionally; on an
empty parsed list that slice is out of bounds (panic), modelled as `none` —
no value (neither error nor stats) is returned. -/
def SyncVariables (envs : Nat → WriterEnv)
    (inputFile targetOrg targetToken hostname : String)
    (records : List (List String)) : Option (Except String SyncStats) :=
  if inputFile = "" ∨ targetOrg = "" ∨ targetToken = "" then
    some (Except.error
      "missing required parameters: mapping file, target organization, or target token")
  else
    match records with
    | [] => none
    | _ :: tail =>
      some (Except.ok (syncRecordsLoop envs targetOrg targetToken hostname 0 tail
        ⟨0, 0, 0, 0⟩))

/-- C10: after the parameter validation passes, `SyncVariables` produces no
outcome at all (the `records[1:]` slice panics) exactly when the parsed
record list is empty; with at least one parsed row (the header) it is total. -/
theorem sync_requires_nonempty_records (envs : Nat → WriterEnv)
    (inputFile targetOrg targetToken hostname : String)
    (records : List (List String)) :
    SyncVariables envs inputFile targetOrg targetToken hostname records = none ↔
      (inputFile ≠ "" ∧ targetOrg ≠ "" ∧ targetToken ≠ "" ∧ records = []) := by
  unfold SyncVariables
  by_cases hv : inputFile = "" ∨ targetOrg = "" ∨ targetToken = ""
  · rw [if_pos hv]
    simp only [reduceCtorEq, false_iff]
    intro ⟨h1, h2, h3, _⟩
    rcases hv with h | h | h
    · exact h1 h
    · exact h2 h
    · exact h3 h
  · rw [if_neg hv]
    push_neg at hv
    obtain ⟨h1, h2, h3⟩ := hv
    cases records with
    | nil => simp [h1, h2, h3]
    | cons r rs => simp [h1, h2, h3]

theorem doesRepositoryExist_err_none (g : Nat → GetRepositoryResult) (token : String)
    (htok : token ≠ "") : (doesRepositoryExist g token).1.2 = none := by
  unfold doesRepositoryExist
  rw [if_neg htok]
  dsimp only
  cases (g 1).err <;> rfl

theorem addRepoVariable_err_notfound (env : WriterEnv)
    (org repo name value vis token hn : String)
    (horg : org ≠ "") (hname : name ≠ "") (hrepo : repo ≠ "") (htok : token ≠ "")
    (hneg : (doesRepositoryExist env.getRep token).1.1 = false) :
    (AddRepoVariable env org repo name value vis token hn).err =
      some ("repository " ++ repo ++ " does not exist in organization " ++ org) := by
  unfold AddRepoVariable addGitHubVariable
  rw [if_neg (by simp [horg, hname]), if_neg (by simp [hrepo]),
    if_pos (rfl : EntityTypeRepository = EntityTypeRepository)]
  dsimp only
  rw [doesRepositoryExist_err_none env.getRep token htok]
  dsimp only
  rw [hneg]
  rfl

theorem addRepoVariable_err_createfail (env : WriterEnv)
    (org repo name value vis token hn : String)
    (horg : org ≠ "") (hname : name ≠ "") (hrepo : repo ≠ "") (htok : token ≠ "")
    (hpos : (doesRepositoryExist env.getRep token).1.1 = true) (e2 : String)
    (hres : (retryWithExponentialBackoff env.createRepoOp env.ctxDone env.ctxErr
        env.retryMaxCfg env.retryDelayCfg).result = some e2) :
    (AddRepoVariable env org repo name value vis token hn).err =
      some ("failed to create " ++ EntityTypeRepository ++ " variable " ++ name ++
        ": " ++ e2) := by
  unfold AddRepoVariable addGitHubVariable
  rw [if_neg (by simp [horg, hname]), if_neg (by simp [hrepo]),
    if_pos (rfl : EntityTypeRepository = EntityTypeRepository)]
  dsimp only
  rw [doesRepositoryExist_err_none env.getRep token htok]
  dsimp only
  rw [hpos, if_pos rfl]
  unfold addGitHubVariableCreate
  rw [if_neg htok]
  dsimp only
  rw [if_neg (by decide : ¬ EntityTypeRepository = EntityTypeOrg), hres]

theorem string_head_ne {a b : String} (h : a.data.head? ≠ b.data.head?) : a ≠ b :=
  fun e => h (congrArg (fun s => s.data.head?) e)

theorem failed_create_ne_notfound (name e scope org : String) :
    ("failed to create " ++ EntityTypeRepository ++ " variable " ++ name ++ ": " ++ e) ≠
      ("repository " ++ scope ++ " does not exist in organization " ++ org) := by
  intro heq
  have h : (some 'f' : Option Char) = some 'r' :=
    congrArg (fun s => s.data.head?) heq
  exact absurd (Option.some.inj h) (by decide)

/-- C6: for every applied record (one with at least four columns) the sync
loop body increments `total` and exactly one of the three outcome counters:
`succeeded` on a successful create; for a repository-scope record, `skipped`
exactly when the returned error is the repository-not-found message for the
attempted scope/organization pair (in particular whenever the existence check
is negative), and `failed` on any other failure (in particular a creation
failure after the existence check passed); any organization-scope failure
counts as `failed`. -/
theorem sync_outcome_classification (env : WriterEnv)
    (targetOrg targetToken hostname : String) (s : SyncStats) (record : List String)
    (h4 : 4 ≤ record.length) :
    (processRecord env targetOrg targetToken hostname s record).total = s.total + 1 ∧
    ((processRecord env targetOrg targetToken hostname s record).succeeded +
        (processRecord env targetOrg targetToken hostname s record).failed +
        (processRecord env targetOrg targetToken hostname s record).skipped =
      s.succeeded + s.failed + s.skipped + 1) ∧
    (record.getD 2 "" = "organization" →
      ((AddOrgVariable env targetOrg (record.getD 0 "") (record.getD 1 "")
          (record.getD 3 "") targetToken hostname).err = none →
        processRecord env targetOrg targetToken hostname s record =
          { s with total := s.total + 1, succeeded := s.succeeded + 1 }) ∧
      (∀ e, (AddOrgVariable env targetOrg (record.getD 0 "") (record.getD 1 "")
          (record.getD 3 "") targetToken hostname).err = some e →
        processRecord env targetOrg targetToken hostname s record =
          { s with total := s.total + 1, failed := s.failed + 1 })) ∧
    (record.getD 2 "" ≠ "organization" →
      ((AddRepoVariable env targetOrg (record.getD 2 "") (record.getD 0 "")
          (record.getD 1 "") (record.getD 3 "") targetToken hostname).err = none →
        processRecord env targetOrg targetToken hostname s record =
          { s with total := s.total + 1, succeeded := s.succeeded + 1 }) ∧
      ((AddRepoVariable env targetOrg (record.getD 2 "") (record.getD 0 "")
          (record.getD 1 "") (record.getD 3 "") targetToken hostname).err =
          some ("repository " ++ record.getD 2 "" ++ " does not exist in organization "
            ++ targetOrg) →
        processRecord env targetOrg targetToken hostname s record =
          { s with total := s.total + 1, skipped := s.skipped + 1 }) ∧
      (∀ e, (AddRepoVariable env targetOrg (record.getD 2 "") (record.getD 0 "")
          (record.getD 1 "") (record.getD 3 "") targetToken hostname).err = some e →
        e ≠ "repository " ++ record.getD 2 "" ++ " does not exist in organization "
          ++ targetOrg →
        processRecord env targetOrg targetToken hostname s record =
          { s with total := s.total + 1, failed := s.failed + 1 }) ∧
      (targetOrg ≠ "" → record.getD 0 "" ≠ "" → record.getD 2 "" ≠ "" →
        targetToken ≠ "" →
        ((doesRepositoryExist env.getRep targetToken).1.1 = false →
          processRecord env targetOrg targetToken hostname s record =
            { s with total := s.total + 1, skipped := s.skipped + 1 }) ∧
        ((doesRepositoryExist env.getRep targetToken).1.1 = true →
          ∀ e2, (retryWithExponentialBackoff env.createRepoOp env.ctxDone env.ctxErr
              env.retryMaxCfg env.retryDelayCfg).result = some e2 →
          processRecord env targetOrg targetToken hostname s record =
            { s with total := s.total + 1, failed := s.failed + 1 }))) := by
  have hnlt : ¬ record.length < 4 := by omega
  unfold processRecord
  rw [if_neg hnlt]
  dsimp only
  by_cases hsc : record.getD 2 "" = "organization"
  · rw [if_pos hsc]
    cases hor : (AddOrgVariable env targetOrg (record.getD 0 "") (record.getD 1 "")
        (record.getD 3 "") targetToken hostname).err with
    | none =>
      refine ⟨rfl, by dsimp only; omega, ?_, ?_⟩
      · intro _
        exact ⟨fun _ => rfl, fun e he => Option.noConfusion he⟩
      · intro hne
        exact absurd hsc hne
    | some e0 =>
      refine ⟨rfl, by dsimp only; omega, ?_, ?_⟩
      · intro _
        exact ⟨fun h => Option.noConfusion h, fun e _ => rfl⟩
      · intro hne
        exact absurd hsc hne
  · rw [if_neg hsc]
    cases har : (AddRepoVariable env targetOrg (record.getD 2 "") (record.getD 0 "")
        (record.getD 1 "") (record.getD 3 "") targetToken hostname).err with
    | none =>
      refine ⟨rfl, by dsimp only; omega, fun h => absurd h hsc, ?_⟩
      intro hne
      refine ⟨fun _ => rfl, fun h => Option.noConfusion h,
        fun e he _ => Option.noConfusion he, ?_⟩
      intro ho hn hr ht
      constructor
      · intro hneg
        have hc := addRepoVariable_err_notfound env targetOrg (record.getD 2 "")
          (record.getD 0 "") (record.getD 1 "") (record.getD 3 "") targetToken hostname
          ho hn hr ht hneg
        rw [har] at hc
        exact Option.noConfusion hc
      · intro hpos e2 hres
        have hc := addRepoVariable_err_createfail env targetOrg (record.getD 2 "")
          (record.getD 0 "") (record.getD 1 "") (record.getD 3 "") targetToken hostname
          ho hn hr ht hpos e2 hres
        rw [har] at hc
        exact Option.noConfusion hc
    | some e0 =>
      dsimp only
      by_cases hnf : e0 = "repository " ++ record.getD 2 ""
          ++ " does not exist in organization " ++ targetOrg
      · rw [if_pos hnf]
        refine ⟨rfl, by dsimp only; omega, fun h => absurd h hsc, ?_⟩
        intro hne
        refine ⟨fun h => Option.noConfusion h, fun _ => rfl, ?_, ?_⟩
        · intro e' he' hne'
          exact absurd ((Option.some.inj he') ▸ hnf) hne'
        · intro ho hn hr ht
          refine ⟨fun _ => rfl, ?_⟩
          intro hpos e2 hres
          have hc := addRepoVariable_err_createfail env targetOrg (record.getD 2 "")
            (record.getD 0 "") (record.getD 1 "") (record.getD 3 "") targetToken
            hostname ho hn hr ht hpos e2 hres
          rw [har] at hc
          have he0 : e0 = "failed to create " ++ EntityTypeRepository ++ " variable "
              ++ record.getD 0 "" ++ ": " ++ e2 := Option.some.inj hc
          exact absurd (he0 ▸ hnf)
            (failed_create_ne_notfound (record.getD 0 "") e2 (record.getD 2 "")
              targetOrg)
      · rw [if_neg hnf]
        refine ⟨rfl, by dsimp only; omega, fun h => absurd h hsc, ?_⟩
        intro hne
        refine ⟨fun h => Option.noConfusion h, ?_, fun e' _ _ => rfl, ?_⟩
        · intro hsome
          exact absurd (Option.some.inj hsome) hnf
        · intro ho hn hr ht
          refine ⟨?_, fun _ _ _ => rfl⟩
          intro hneg
          have hc := addRepoVariable_err_notfound env targetOrg (record.getD 2 "")
            (record.getD 0 "") (record.getD 1 "") (record.getD 3 "") targetToken
            hostname ho hn hr ht hneg
          rw [har] at hc
          exact absurd (Option.some.inj hc) hnf

/-- Closed-form check of `sync_outcome_classification`: a four-column
repository-scope record whose target repository is missing (lookup 404) is
counted as skipped. -/
theorem sync_outcome_classification_witness :
    (4 ≤ (["VAR2", "val2", "repoA", "private"] : List String).length) ∧
    processRecord ⟨fun _ => ⟨none, 404⟩, fun _ => none, fun _ => none, fun _ => false,
        "", 0, none⟩ "org" "t" "" ⟨0, 0, 0, 0⟩ ["VAR2", "val2", "repoA", "private"] =
      ⟨1, 0, 0, 1⟩ :=
  ⟨by decide,
    ((sync_outcome_classification ⟨fun _ => ⟨none, 404⟩, fun _ => none, fun _ => none,
        fun _ => false, "", 0, none⟩ "org" "t" "" ⟨0, 0, 0, 0⟩
        ["VAR2", "val2", "repoA", "private"] (by decide)).2.2.2 (by decide)).2.1
      (by decide)⟩

/-! ## Repository listing (`internal/api/api.go`, `listPaginatedRepositories`) -/

/-- `github.RepositoryListByOrgOptions` as far as the loop touches it. -/
structure ListOptions where
  perPage : Nat
  page : Nat
deriving DecidableEq

/-- One fetched page: the returned error, the payload (`none` = nil slice;
each entry is `none` for a nil repository or `some name?` with its nullable
`Name` field) and the response (`none` = nil response, otherwise its
`NextPage` cursor, 0 = no next page). -/
structure FetchedPage where
  err : Option String
  repos : Option (List (Option (Option String)))
  nextPage : Option Nat

/-- Names collected from one page: entries that are non-nil and have a
non-nil `Name`. -/
def pageNames (rs : List (Option (Option String))) : List String :=
  rs.filterMap (fun entry => entry.bind id)

/-- The pagination loop of `listPaginatedRepositories`, with an explicit
`fuel` bound on the number of iterations (`none` = fuel exhausted; the Go
loop is unbounded) and an accumulated log of the options passed to each
`fetch` call. -/
def listPaginatedAux (fetch : ListOptions → FetchedPage) (opts : ListOptions)
    (acc : List String) (log : List ListOptions) :
    Nat → Option (Except String (List String) × List ListOptions)
  | 0 => none
  | fuel + 1 =>
    let p := fetch opts
    match p.err with
    | some e => some (Except.error e, log ++ [opts])
    | none =>
      match p.repos with
      | none => some (Except.error "no data returned", log ++ [opts])
      | some rs =>
        match p.nextPage with
        | none => some (Except.ok (acc ++ pageNames rs), log ++ [opts])
        | some np =>
          if np = 0 then some (Except.ok (acc ++ pageNames rs), log ++ [opts])
          else listPaginatedAux fetch { opts with page := np } (acc ++ pageNames rs)
            (log ++ [opts]) fuel

/-- `listPaginatedRepositories`: pagination starts with `PerPage = 100` and
the zero-valued `Page`. -/
def listPaginatedRepositories (fetch : ListOptions → FetchedPage) (fuel : Nat) :
    Option (Except String (List String) × List ListOptions) :=
  listPaginatedAux fetch ⟨100, 0⟩ [] [] fuel

/-- Modelled from the claim wording of C9: follow `NextPage` cursors (always
requesting 100 items per page) until a response reports no next page,
concatenating the names of the non-null entries of each page in order;
propagate a page error, and fail if any page returns a nil payload. -/
def listRepositoriesSpec (fetch : ListOptions → FetchedPage) :
    Nat → Nat → Option (Except String (List String))
  | _, 0 => none
  | page, fuel + 1 =>
    let p := fetch ⟨100, page⟩
    match p.err with
    | some e => some (Except.error e)
    | none =>
      match p.repos with
      | none => some (Except.error "no data returned")
      | some rs =>
        match p.nextPage with
        | none => some (Except.ok (pageNames rs))
        | some np =>
          if np = 0 then some (Except.ok (pageNames rs))
          else
            match listRepositoriesSpec fetch np fuel with
            | none => none
            | some (Except.error e) => some (Except.error e)
            | some (Except.ok l) => some (Except.ok (pageNames rs ++ l))

theorem listPaginatedAux_spec (fetch : ListOptions → FetchedPage) :
    ∀ (fuel page : Nat) (acc : List String) (log : List ListOptions),
      (listPaginatedAux fetch ⟨100, page⟩ acc log fuel).map Prod.fst =
        (listRepositoriesSpec fetch page fuel).map
          (fun r => match r with
            | Except.error e => Except.error e
            | Except.ok l => Except.ok (acc ++ l)) := by
  intro fuel
  induction fuel with
  | zero => intro page acc log; rfl
  | succ fuel ih =>
    intro page acc log
    unfold listPaginatedAux listRepositoriesSpec
    dsimp only
    cases (fetch ⟨100, page⟩).err with
    | some e => rfl
    | none =>
      dsimp only
      cases (fetch ⟨100, page⟩).repos with
      | none => rfl
      | some rs =>
        dsimp only
        cases (fetch ⟨100, page⟩).nextPage with
        | none => rfl
        | some np =>
          dsimp only
          by_cases hnp : np = 0
          · rw [if_pos hnp, if_pos hnp]
            rfl
          · rw [if_neg hnp, if_neg hnp]
            rw [ih np (acc ++ pageNames rs)
              (log ++ [({ perPage := 100, page := page } : ListOptions)])]
            cases listRepositoriesSpec fetch np fuel with
            | none => rfl
            | some r =>
              cases r with
              | error e => rfl
              | ok l => simp [List.append_assoc]

theorem listPaginatedAux_perPage (fetch : ListOptions → FetchedPage) :
    ∀ (fuel page : Nat) (acc : List String) (log : List ListOptions) res out,
      (∀ o ∈ log, o.perPage = 100) →
      listPaginatedAux fetch ⟨100, page⟩ acc log fuel = some (res, out) →
      ∀ o ∈ out, o.perPage = 100 := by
  intro fuel
  induction fuel with
  | zero => intro page acc log res out _ h; exact absurd h (by simp [listPaginatedAux])
  | succ fuel ih =>
    intro page acc log res out hlog h
    have hlog' : ∀ o ∈ log ++ [(⟨100, page⟩ : ListOptions)], o.perPage = 100 := by
      intro o ho
      rcases List.mem_append.mp ho with h1 | h2
      · exact hlog o h1
      · rw [List.mem_singleton.mp h2]
    unfold listPaginatedAux at h
    dsimp only at h
    cases he : (fetch ⟨100, page⟩).err with
    | some e =>
      rw [he] at h
      dsimp only at h
      cases h
      exact hlog'
    | none =>
      rw [he] at h
      dsimp only at h
      cases hr : (fetch ⟨100, page⟩).repos with
      | none =>
        rw [hr] at h
        dsimp only at h
        cases h
        exact hlog'
      | some rs =>
        rw [hr] at h
        dsimp only at h
        cases hn : (fetch ⟨100, page⟩).nextPage with
        | none =>
          rw [hn] at h
          dsimp only at h
          cases h
          exact hlog'
        | some np =>
          rw [hn] at h
          dsimp only at h
          by_cases hnp : np = 0
          · rw [if_pos hnp] at h
            cases h
            exact hlog'
          · rw [if_neg hnp] at h
            exact ih np (acc ++ pageNames rs) (log ++ [⟨100, page⟩]) res out hlog' h

/-- C9: the repository listing requests 100 items per page on every call
(every logged option set carries `PerPage = 100`), and its outcome — names of
all non-null entries accumulated across pages in cursor order, an error when
a page has a nil payload, stopping when a response reports no next page — is
exactly the specified pagination (whenever the fuel bound does not cut the
run short; the Go loop is unbounded). -/
theorem listPaginatedRepositories_spec (fetch : ListOptions → FetchedPage)
    (fuel : Nat) :
    ((listPaginatedRepositories fetch fuel).map Prod.fst =
      listRepositoriesSpec fetch 0 fuel) ∧
    (∀ res out, listPaginatedRepositories fetch fuel = some (res, out) →
      ∀ o ∈ out, o.perPage = 100) := by
  constructor
  · have h := listPaginatedAux_spec fetch fuel 0 [] []
    unfold listPaginatedRepositories
    rw [h]
    cases listRepositoriesSpec fetch 0 fuel with
    | none => rfl
    | some r =>
      cases r with
      | error e => rfl
      | ok l => simp
  · intro res out h
    exact listPaginatedAux_perPage fetch fuel 0 [] [] res out (by simp) h

/-- Closed-form check of `listPaginatedRepositories_spec` on a two-page
listing (`NextPage = 2`, then no next page) with a nil entry and a
nil-name entry dropped. -/
theorem listPaginatedRepositories_spec_witness :
    listPaginatedRepositories
        (fun o => if o.page = 0 then ⟨none, some [some (some "r1"), none], some 2⟩
          else ⟨none, some [some none, some (some "r2")], some 0⟩) 3 =
      some (Except.ok ["r1", "r2"], [⟨100, 0⟩, ⟨100, 2⟩]) ∧
    (∀ o ∈ [(⟨100, 0⟩ : ListOptions), ⟨100, 2⟩], o.perPage = 100) :=
  ⟨rfl,
    (listPaginatedRepositories_spec
      (fun o => if o.page = 0 then ⟨none, some [some (some "r1"), none], some 2⟩
        else ⟨none, some [some none, some (some "r2")], some 0⟩) 3).2
      (Except.ok ["r1", "r2"]) [⟨100, 0⟩, ⟨100, 2⟩] rfl⟩
